import Mathlib

/-!
Verification of the QuarksivoF conversion-dispatch and request-lifecycle layer.

Shallow embedding of the JavaScript source:
* the per-IP rate limiter `checkRateLimit` from `src/functions/PngToJpg.js`
  (the `ImageConverterMain` document),
* the conversion registry from `src/utils/moduleLoader.js`,
* the multipart request parser `parseImageRequest` from `src/utils/requestParser.js`,
* the dispatch handler `ImageConverterMain` and the `RateLimitStatus` handler,
* the conversion modules `processJpgToPng` / `processPngToAvif`.

Conventions: timestamps (`Date.now()`) are naturals (milliseconds); byte
buffers are `List Nat`; external library calls (sharp, parse-multipart-data,
`JSON.parse`) are abstracted as function parameters at the exact boundary the
source calls them; the shared in-memory `Map` of rate-limit records is an
association list threaded explicitly through each handler.
-/

namespace Quarksivo

/-! ## Rate limiter (src/functions/PngToJpg.js, `ImageConverterMain` document)

```js
const ipLimits = new Map();
const REQUESTS_PER_DAY = 200;
const DAY_IN_MS = 24 * 60 * 60 * 1000;
```
-/

/-- A value of the `ipLimits` map: `{ count, lastReset }`. -/
structure RLRecord where
  count : Nat
  lastReset : Nat
  deriving DecidableEq, Repr

/-- The process-wide `ipLimits : Map<string, {count, lastReset}>`,
modelled as an association list in insertion order (`Map.set` updates in
place or appends, `Map.get` finds the unique entry for a key). -/
abbrev RateState := List (String × RLRecord)

def REQUESTS_PER_DAY : Nat := 200

def DAY_IN_MS : Nat := 24 * 60 * 60 * 1000

/-- `ipLimits.get(ip)` (also `ipLimits.has(ip)` via `Option.isSome`). -/
def lookupIp (ip : String) : RateState → Option RLRecord
  | [] => none
  | (k, v) :: rest => if k = ip then some v else lookupIp ip rest

/-- `ipLimits.set(ip, data)`: replace the entry for `ip`, or append it. -/
def setIp (ip : String) (r : RLRecord) : RateState → RateState
  | [] => [(ip, r)]
  | (k, v) :: rest => if k = ip then (k, r) :: rest else (k, v) :: setIp ip r rest

/-- The result object of `checkRateLimit`:
`{ allowed, remaining, resetTime? }` (`resetTime` is an ISO string built
from the timestamp `lastReset + DAY_IN_MS`; we keep the timestamp). -/
structure RLResult where
  allowed : Bool
  remaining : Nat
  resetTime : Option Nat := none
  deriving DecidableEq, Repr

/-- `checkRateLimit(ip)` from `src/functions/PngToJpg.js`.  `now` is the
`Date.now()` read at the top of the function; the map is threaded
explicitly, so the function returns the result together with the updated
map.  JS `now - lastReset >= DAY_IN_MS` is false whenever the difference
is negative, which truncating `Nat` subtraction models exactly
(`DAY_IN_MS > 0`). -/
def checkRateLimit (ip : String) (now : Nat) (st : RateState) : RLResult × RateState :=
  match lookupIp ip st with
  | none =>
      -- first request from this IP
      ({ allowed := true, remaining := REQUESTS_PER_DAY - 1 }, setIp ip ⟨1, now⟩ st)
  | some ipData =>
      if now - ipData.lastReset ≥ DAY_IN_MS then
        -- 24h elapsed: hard reset
        ({ allowed := true, remaining := REQUESTS_PER_DAY - 1 }, setIp ip ⟨1, now⟩ st)
      else if ipData.count ≥ REQUESTS_PER_DAY then
        -- over the limit: reject, no mutation
        ({ allowed := false, remaining := 0,
           resetTime := some (ipData.lastReset + DAY_IN_MS) }, st)
      else
        -- increment the counter
        ({ allowed := true, remaining := REQUESTS_PER_DAY - (ipData.count + 1) },
         setIp ip ⟨ipData.count + 1, ipData.lastReset⟩ st)

/-- Run `checkRateLimit` for a fixed IP at a list of successive timestamps,
collecting each call's result and the final map. -/
def runCalls (ip : String) : List Nat → RateState → List RLResult × RateState
  | [], st => ([], st)
  | t :: ts, st =>
      let (r, st') := checkRateLimit ip t st
      let (rs, st'') := runCalls ip ts st'
      (r :: rs, st'')

/-- Fold an arbitrary interleaving of calls (any IPs, any times) over the map. -/
def foldCalls : List (String × Nat) → RateState → RateState
  | [], st => st
  | (ip, t) :: cs, st => foldCalls cs (checkRateLimit ip t st).2

/-! Helper lemmas about the limiter. -/

theorem lookupIp_setIp_self (ip : String) (r : RLRecord) :
    ∀ st : RateState, lookupIp ip (setIp ip r st) = some r := by
  intro st
  induction st with
  | nil => simp [setIp, lookupIp]
  | cons p rest ih =>
      obtain ⟨k, v⟩ := p
      by_cases h : k = ip <;> simp [setIp, lookupIp, h, ih]

theorem mem_setIp (ip : String) (r : RLRecord) :
    ∀ (st : RateState) (p : String × RLRecord),
      p ∈ setIp ip r st → p = (ip, r) ∨ p ∈ st := by
  intro st
  induction st with
  | nil => intro p hp; simp [setIp] at hp; left; exact hp
  | cons q rest ih =>
      obtain ⟨k, v⟩ := q
      intro p hp
      by_cases h : k = ip
      · simp [setIp, h] at hp
        rcases hp with hp | hp
        · left; exact hp
        · right; simp [hp]
      · simp [setIp, h] at hp
        rcases hp with hp | hp
        · right; simp [hp]
        · rcases ih p hp with h1 | h1
          · left; exact h1
          · right; simp [h1]

/-- One allowed step, viewed through the record for `ip`: the expected
result and new count given the count `c` stored before the call. -/
def expectedResult (c t₁ : Nat) : RLResult :=
  if c < REQUESTS_PER_DAY then
    { allowed := true, remaining := REQUESTS_PER_DAY - (c + 1) }
  else
    { allowed := false, remaining := 0, resetTime := some (t₁ + DAY_IN_MS) }

def expectedCount (c : Nat) : Nat :=
  if c < REQUESTS_PER_DAY then c + 1 else c

/-- The list of results of `n` successive in-window calls when the stored
count starts at `c`. -/
def expectedResults (c t₁ : Nat) : Nat → List RLResult
  | 0 => []
  | n + 1 => expectedResult c t₁ :: expectedResults (expectedCount c) t₁ n

theorem checkRateLimit_inWindow (ip : String) (now c t₁ : Nat)
    (hw : now - t₁ < DAY_IN_MS) :
    checkRateLimit ip now [(ip, ⟨c, t₁⟩)] =
      (expectedResult c t₁, [(ip, ⟨expectedCount c, t₁⟩)]) := by
  unfold checkRateLimit expectedResult expectedCount
  simp [lookupIp, Nat.not_le.mpr hw, setIp]
  by_cases h : c < REQUESTS_PER_DAY
  · simp [Nat.not_le.mpr h, h]
  · simp [Nat.le_of_not_lt (by exact h), h]

theorem runCalls_inWindow (ip : String) (t₁ : Nat) :
    ∀ (ts : List Nat) (c : Nat), (∀ t ∈ ts, t - t₁ < DAY_IN_MS) →
      runCalls ip ts [(ip, ⟨c, t₁⟩)] =
        (expectedResults c t₁ ts.length, [(ip, ⟨expectedCount^[ts.length] c, t₁⟩)]) := by
  intro ts
  induction ts with
  | nil => intro c _; simp [runCalls, expectedResults]
  | cons t ts ih =>
      intro c hw
      have ht : t - t₁ < DAY_IN_MS := hw t (by simp)
      have hrest : ∀ u ∈ ts, u - t₁ < DAY_IN_MS := fun u hu => hw u (by simp [hu])
      simp only [runCalls, checkRateLimit_inWindow ip t c t₁ ht, ih (expectedCount c) hrest,
        List.length_cons, expectedResults]
      rw [Function.iterate_succ_apply]

theorem expectedResults_get_allowed (t₁ : Nat) :
    ∀ (k c m : Nat), k < m → c + k < REQUESTS_PER_DAY →
      (expectedResults c t₁ m).get? k =
        some { allowed := true, remaining := REQUESTS_PER_DAY - (c + k + 1) } := by
  intro k
  induction k with
  | zero =>
      intro c m hm hq
      cases m with
      | zero => omega
      | succ m =>
          have hc : c < REQUESTS_PER_DAY := by omega
          have h0 : c + 0 + 1 = c + 1 := by omega
          simp only [expectedResults, List.get?_cons_zero, expectedResult, if_pos hc, h0]
  | succ k ih =>
      intro c m hm hq
      cases m with
      | zero => omega
      | succ m =>
          have hc : c < REQUESTS_PER_DAY := by omega
          have he : expectedCount c = c + 1 := by simp [expectedCount, hc]
          simp only [expectedResults, List.get?_cons_succ]
          rw [ih (expectedCount c) m (by omega) (by rw [he]; omega), he]
          have h1 : c + 1 + k + 1 = c + (k + 1) + 1 := by omega
          rw [h1]

theorem expectedResults_get_rejected (t₁ : Nat) :
    ∀ (k c m : Nat), k < m → c + k = REQUESTS_PER_DAY →
      (expectedResults c t₁ m).get? k =
        some { allowed := false, remaining := 0, resetTime := some (t₁ + DAY_IN_MS) } := by
  intro k
  induction k with
  | zero =>
      intro c m hm hq
      cases m with
      | zero => omega
      | succ m =>
          have hc : ¬ c < REQUESTS_PER_DAY := by omega
          simp only [expectedResults, List.get?_cons_zero, expectedResult, if_neg hc]
  | succ k ih =>
      intro c m hm hq
      cases m with
      | zero => omega
      | succ m =>
          have hc : c < REQUESTS_PER_DAY := by omega
          have he : expectedCount c = c + 1 := by simp [expectedCount, hc]
          simp only [expectedResults, List.get?_cons_succ]
          exact ih (expectedCount c) m (by omega) (by rw [he]; omega)

/-! Branch equations for `checkRateLimit`. -/

theorem checkRateLimit_of_lookup_none (ip : String) (now : Nat) (st : RateState)
    (h : lookupIp ip st = none) :
    checkRateLimit ip now st =
      ({ allowed := true, remaining := REQUESTS_PER_DAY - 1 }, setIp ip ⟨1, now⟩ st) := by
  unfold checkRateLimit
  rw [h]

theorem checkRateLimit_of_reset (ip : String) (now : Nat) (st : RateState) (r : RLRecord)
    (h : lookupIp ip st = some r) (hr : DAY_IN_MS ≤ now - r.lastReset) :
    checkRateLimit ip now st =
      ({ allowed := true, remaining := REQUESTS_PER_DAY - 1 }, setIp ip ⟨1, now⟩ st) := by
  unfold checkRateLimit
  rw [h]
  simp [ge_iff_le, hr]

theorem checkRateLimit_of_over (ip : String) (now : Nat) (st : RateState) (r : RLRecord)
    (h : lookupIp ip st = some r) (hw : now - r.lastReset < DAY_IN_MS)
    (hc : REQUESTS_PER_DAY ≤ r.count) :
    checkRateLimit ip now st =
      ({ allowed := false, remaining := 0,
         resetTime := some (r.lastReset + DAY_IN_MS) }, st) := by
  unfold checkRateLimit
  rw [h]
  simp [ge_iff_le, Nat.not_le.mpr hw, hc]

theorem checkRateLimit_of_incr (ip : String) (now : Nat) (st : RateState) (r : RLRecord)
    (h : lookupIp ip st = some r) (hw : now - r.lastReset < DAY_IN_MS)
    (hc : r.count < REQUESTS_PER_DAY) :
    checkRateLimit ip now st =
      ({ allowed := true, remaining := REQUESTS_PER_DAY - (r.count + 1) },
       setIp ip ⟨r.count + 1, r.lastReset⟩ st) := by
  unfold checkRateLimit
  rw [h]
  simp [ge_iff_le, Nat.not_le.mpr hw, Nat.not_le.mpr hc]

/-- Any single call keeps every stored count at or below the quota. -/
theorem checkRateLimit_step_count_le (ip : String) (now : Nat) (st : RateState)
    (h : ∀ p ∈ st, p.2.count ≤ 200) :
    ∀ p ∈ (checkRateLimit ip now st).2, p.2.count ≤ 200 := by
  intro p hp
  cases hfind : lookupIp ip st with
  | none =>
      rw [checkRateLimit_of_lookup_none ip now st hfind] at hp
      rcases mem_setIp ip ⟨1, now⟩ st p hp with h1 | h1
      · rw [h1]; exact (by decide : (1 : Nat) ≤ 200)
      · exact h p h1
  | some r =>
      by_cases hreset : DAY_IN_MS ≤ now - r.lastReset
      · rw [checkRateLimit_of_reset ip now st r hfind hreset] at hp
        rcases mem_setIp ip ⟨1, now⟩ st p hp with h1 | h1
        · rw [h1]; exact (by decide : (1 : Nat) ≤ 200)
        · exact h p h1
      · by_cases hover : REQUESTS_PER_DAY ≤ r.count
        · rw [checkRateLimit_of_over ip now st r hfind (Nat.not_le.mp hreset) hover] at hp
          exact h p hp
        · rw [checkRateLimit_of_incr ip now st r hfind (Nat.not_le.mp hreset)
            (Nat.not_le.mp hover)] at hp
          rcases mem_setIp ip ⟨r.count + 1, r.lastReset⟩ st p hp with h1 | h1
          · rw [h1]
            have h2 : r.count < 200 := Nat.not_le.mp hover
            show r.count + 1 ≤ 200
            omega
          · exact h p h1

theorem foldCalls_count_le :
    ∀ (calls : List (String × Nat)) (st : RateState),
      (∀ p ∈ st, p.2.count ≤ 200) → ∀ p ∈ foldCalls calls st, p.2.count ≤ 200 := by
  intro calls
  induction calls with
  | nil => intro st h p hp; exact h p hp
  | cons c cs ih =>
      obtain ⟨ip, t⟩ := c
      intro st h p hp
      exact ih (checkRateLimit ip t st).2 (checkRateLimit_step_count_le ip t st h) p hp

/-! ## Claim theorems for the rate limiter -/

/-- C1: for a fixed client IP whose calls all fall inside the 24h window
opened by its first call, the Nth call to `checkRateLimit` (1 ≤ N ≤ 200)
returns `allowed = true` with `remaining = 200 - N`, and the 201st call
within the same window returns `allowed = false` with `remaining = 0`. -/
theorem checkRateLimit_fairness_within_window (ip : String) (t₁ : Nat) (ts : List Nat)
    (hw : ∀ t ∈ ts, t - t₁ < DAY_IN_MS) :
    (∀ N, 1 ≤ N → N ≤ 200 → N ≤ ts.length + 1 →
       ((runCalls ip (t₁ :: ts) []).1).get? (N - 1) =
         some { allowed := true, remaining := 200 - N, resetTime := none }) ∧
    (201 ≤ ts.length + 1 →
       ((runCalls ip (t₁ :: ts) []).1).get? 200 =
         some { allowed := false, remaining := 0,
                resetTime := some (t₁ + DAY_IN_MS) }) := by
  have hres : (runCalls ip (t₁ :: ts) []).1 = expectedResults 0 t₁ (ts.length + 1) := by
    have h2 := runCalls_inWindow ip t₁ ts 1 hw
    calc (runCalls ip (t₁ :: ts) []).1
        = ({ allowed := true, remaining := 199, resetTime := none } : RLResult) ::
            (runCalls ip ts [(ip, ⟨1, t₁⟩)]).1 := rfl
      _ = ({ allowed := true, remaining := 199, resetTime := none } : RLResult) ::
            expectedResults 1 t₁ ts.length := by rw [h2]
      _ = expectedResults 0 t₁ (ts.length + 1) := rfl
  constructor
  · intro N h1 h2 h3
    rw [hres]
    have hget := expectedResults_get_allowed t₁ (N - 1) 0 (ts.length + 1)
      (by omega) (by simp only [REQUESTS_PER_DAY]; omega)
    rw [hget]
    have hN : 0 + (N - 1) + 1 = N := by omega
    rw [hN]
    simp [REQUESTS_PER_DAY]
  · intro hlen
    rw [hres]
    exact expectedResults_get_rejected t₁ 200 0 (ts.length + 1) (by omega)
      (by simp [REQUESTS_PER_DAY])

/-- Witness for C1: a single IP issuing 201 calls at time 0 gets
`remaining = 0` (still allowed) on call 200 and is rejected on call 201. -/
theorem checkRateLimit_fairness_within_window_witness :
    ((runCalls "203.0.113.7" (0 :: List.replicate 200 0) []).1).get? 199 =
      some { allowed := true, remaining := 0, resetTime := none } ∧
    ((runCalls "203.0.113.7" (0 :: List.replicate 200 0) []).1).get? 200 =
      some { allowed := false, remaining := 0, resetTime := some (0 + DAY_IN_MS) } := by
  have h := checkRateLimit_fairness_within_window "203.0.113.7" 0 (List.replicate 200 0)
    (by intro t ht; rw [List.eq_of_mem_replicate ht]; decide)
  refine ⟨?_, h.2 (by simp only [List.length_replicate]; omega)⟩
  have h200 := h.1 200 (by decide) (by decide) (by simp only [List.length_replicate]; omega)
  simpa using h200

/-- C2: a call for an IP with an existing record, arriving ≥ 24h after
`lastReset`, hard-resets the record to `{count := 1, lastReset := now}`
and is allowed with `remaining = 199`, regardless of the prior count. -/
theorem checkRateLimit_reset_after_window (ip : String) (now : Nat) (st : RateState)
    (r : RLRecord) (hfound : lookupIp ip st = some r)
    (helapsed : DAY_IN_MS ≤ now - r.lastReset) :
    checkRateLimit ip now st =
      ({ allowed := true, remaining := 199, resetTime := none }, setIp ip ⟨1, now⟩ st) := by
  have := checkRateLimit_of_reset ip now st r hfound helapsed
  simpa [REQUESTS_PER_DAY] using this

/-- Witness for C2: an IP whose record already sits at the full quota of
200 is reset and allowed once 24h have passed. -/
theorem checkRateLimit_reset_after_window_witness :
    checkRateLimit "203.0.113.8" DAY_IN_MS [("203.0.113.8", ⟨200, 0⟩)] =
      ({ allowed := true, remaining := 199, resetTime := none },
       [("203.0.113.8", ⟨1, DAY_IN_MS⟩)]) := by
  have := checkRateLimit_reset_after_window "203.0.113.8" DAY_IN_MS
    [("203.0.113.8", ⟨200, 0⟩)] ⟨200, 0⟩ (by simp [lookupIp]) (by decide)
  simpa [setIp] using this

/-- C3: starting from the empty map, every stored `count` stays ≤ 200
after any sequence of calls; and a call that finds `count` already at the
quota inside the window rejects and leaves the map unchanged (no
increment). -/
theorem checkRateLimit_count_invariant :
    (∀ (calls : List (String × Nat)) (p : String × RLRecord),
        p ∈ foldCalls calls [] → p.2.count ≤ 200) ∧
    (∀ (ip : String) (now : Nat) (st : RateState) (r : RLRecord),
        lookupIp ip st = some r → now - r.lastReset < DAY_IN_MS → 200 ≤ r.count →
        checkRateLimit ip now st =
          ({ allowed := false, remaining := 0,
             resetTime := some (r.lastReset + DAY_IN_MS) }, st)) := by
  constructor
  · intro calls p hp
    exact foldCalls_count_le calls [] (by intro q hq; simp at hq) p hp
  · intro ip now st r hfound hw hc
    exact checkRateLimit_of_over ip now st r hfound hw (by simpa [REQUESTS_PER_DAY] using hc)

/-- Witness for C3: the record created by one call has count 1 ≤ 200, and
a saturated record is rejected with the map left untouched. -/
theorem checkRateLimit_count_invariant_witness :
    (("203.0.113.9", (⟨1, 0⟩ : RLRecord)).2.count ≤ 200) ∧
    checkRateLimit "203.0.113.9" 5 [("203.0.113.9", ⟨200, 0⟩)] =
      ({ allowed := false, remaining := 0, resetTime := some (0 + DAY_IN_MS) },
       [("203.0.113.9", ⟨200, 0⟩)]) := by
  refine ⟨?_, ?_⟩
  · exact checkRateLimit_count_invariant.1 [("203.0.113.9", 0)]
      ("203.0.113.9", ⟨1, 0⟩) (by simp [foldCalls, checkRateLimit, lookupIp, setIp])
  · exact checkRateLimit_count_invariant.2 "203.0.113.9" 5 [("203.0.113.9", ⟨200, 0⟩)]
      ⟨200, 0⟩ (by simp [lookupIp]) (by decide) (by decide)

/-! ## Conversion registry (src/utils/moduleLoader.js)

`CONVERSION_MODULES` is a plain JS object literal.  Each entry carries a
`processor` (an external async module function, recorded here by name), an
`outputFormat` string, and a `conversionOptions` default-options object
(consumed opaquely by the external processor; not needed by any claim and
therefore not modelled).  Entries are listed in source order. -/

structure ConversionEntry where
  processorName : String
  outputFormat : String
  deriving DecidableEq, Repr

def CONVERSION_MODULES : List (String × ConversionEntry) :=
  [ ("jpg-to-png",  ⟨"processJpgToPng",  "png"⟩),
    ("png-to-jpg",  ⟨"processPngToJpg",  "jpg"⟩),
    ("webp-to-jpg", ⟨"processWebpToJpg", "jpg"⟩),
    ("jpg-to-webp", ⟨"processJpgToWebp", "webp"⟩),
    ("png-to-webp", ⟨"processPngToWebp", "webp"⟩),
    ("webp-to-png", ⟨"processWebpToPng", "png"⟩),
    ("avif-to-jpg", ⟨"processAvifToJpg", "jpg"⟩),
    ("jpg-to-avif", ⟨"processJpgToAvif", "avif"⟩),
    ("png-to-avif", ⟨"processPngToAvif", "avif"⟩),
    ("heic-to-jpg", ⟨"processHeicToJpg", "jpg"⟩),
    ("heic-to-png", ⟨"processHeicToPng", "png"⟩),
    ("svg-to-webp", ⟨"processSvgToWebp", "webp"⟩),
    ("svg-to-png",  ⟨"processSvgToPng",  "png"⟩),
    ("svg-to-jpg",  ⟨"processSvgToJpg",  "jpg"⟩),
    ("svg-to-jpeg", ⟨"processSvgToJpeg", "jpeg"⟩),
    ("gif-to-mp4",  ⟨"processGifToMp4",  "mp4"⟩) ]

/-- The own property keys of `CONVERSION_MODULES` (JS `Object.keys`). -/
def findEntry (k : String) : List (String × ConversionEntry) → Option ConversionEntry
  | [] => none
  | (key, e) :: rest => if key = k then some e else findEntry k rest

/-- The own property names of `Object.prototype` in Node.js.  A JS object
literal such as `CONVERSION_MODULES` inherits them through its prototype
chain: the `in` operator reports them as present, and indexing with such
a name yields the inherited (truthy) function or object, not
`undefined`. -/
def objectPrototypeProps : List String :=
  [ "constructor", "hasOwnProperty", "isPrototypeOf", "propertyIsEnumerable",
    "toLocaleString", "toString", "valueOf",
    "__defineGetter__", "__defineSetter__", "__lookupGetter__", "__lookupSetter__",
    "__proto__" ]

/-- A value produced by the JS property read `CONVERSION_MODULES[k]`:
either an own registry entry, or a (truthy) member inherited from
`Object.prototype`. -/
inductive JsProp where
  | entry (e : ConversionEntry)
  | inherited (name : String)
  deriving DecidableEq, Repr

/-- `CONVERSION_MODULES[k]` with full JS property-lookup semantics:
own properties first, then the prototype chain; `none` = `undefined`. -/
def jsGetProp (k : String) : Option JsProp :=
  match findEntry k CONVERSION_MODULES with
  | some e => some (.entry e)
  | none => if k ∈ objectPrototypeProps then some (.inherited k) else none

/-- `getConversionConfig(conversionType)`:
`CONVERSION_MODULES[conversionType] || null`.  Every value reachable by
the property read (registry entries are objects, inherited prototype
members are functions or objects) is truthy, so the `|| null` only maps
`undefined` to `null`, i.e. the function coincides with the raw read. -/
def getConversionConfig (conversionType : String) : Option JsProp :=
  jsGetProp conversionType

/-- `isConversionSupported(conversionType)`:
`conversionType in CONVERSION_MODULES` — the `in` operator also walks the
prototype chain. -/
def isConversionSupported (conversionType : String) : Bool :=
  (jsGetProp conversionType).isSome

/-- The characters after the first occurrence of `-to-` in a key. -/
def afterToSep : List Char → Option (List Char)
  | [] => none
  | c :: rest =>
      if List.isPrefixOf ['-', 't', 'o', '-'] (c :: rest) then some (rest.drop 3)
      else afterToSep rest

/-- The suffix of a conversion key after its `-to-` separator
(the claim's notion of the key's output-format segment). -/
def keySuffix (k : String) : String :=
  match afterToSep k.data with
  | some cs => String.mk cs
  | none => ""

/-- One registered key is well-formed: the lookup finds an own entry whose
`outputFormat` equals the key's suffix after `-to-`. -/
def registryEntryMatches (k : String) : Bool :=
  match getConversionConfig k with
  | some (.entry e) => e.outputFormat == keySuffix k
  | _ => false

/-! ## Request parser (src/utils/requestParser.js, `parseImageRequest`)

External boundaries: `parse-multipart-data` supplies the list of parts for
the request body and extracted boundary, and
`JSON.parse(part.data.toString())` is modelled by a `jsonParse` parameter
on the raw bytes (`none` = the parse threw; `nonArray` = it parsed to a
non-array value, which `Array.isArray` then rejects). -/

structure MultipartPart where
  name : String
  data : List Nat
  deriving DecidableEq, Repr

inductive JsonValue where
  | arr (xs : List String)
  | nonArray
  deriving DecidableEq, Repr

inductive ParseError where
  | invalidContentType
  | missingBoundary
  | noFileFound
  | parsingError (msg : String)
  deriving DecidableEq, Repr

def ParseError.status : ParseError → Nat
  | .invalidContentType => 400
  | .missingBoundary => 400
  | .noFileFound => 400
  | .parsingError _ => 500

def ParseError.code : ParseError → String
  | .invalidContentType => "INVALID_CONTENT_TYPE"
  | .missingBoundary => "MISSING_BOUNDARY"
  | .noFileFound => "NO_FILE_FOUND"
  | .parsingError _ => "PARSING_ERROR"

/-- `parseImageRequest` result: either `{error}` or
`{imageBuffer, options, size}` (the `size` field, a float-formatted MB
string used only for logging, is omitted). -/
inductive ParseResult where
  | failure (e : ParseError)
  | parsed (imageBuffer : List Nat) (options : List String)
  deriving DecidableEq, Repr

/-- JS `string.includes(sub)` over character lists. -/
def containsSub (sub : List Char) : List Char → Bool
  | [] => sub.isEmpty
  | c :: rest => List.isPrefixOf sub (c :: rest) || containsSub sub rest

def stringIncludes (s sub : String) : Bool :=
  containsSub sub.data s.data

/-- The characters after the first occurrence of `sep`
(`none` when `sep` does not occur). -/
def afterFirst (sep : List Char) : List Char → Option (List Char)
  | [] => none
  | c :: rest =>
      if List.isPrefixOf sep (c :: rest) then some ((c :: rest).drop sep.length)
      else afterFirst sep rest

/-- The characters before the next occurrence of `sep`. -/
def takeUntil (sep : List Char) : List Char → List Char
  | [] => []
  | c :: rest => if List.isPrefixOf sep (c :: rest) then [] else c :: takeUntil sep rest

/-- JS `s.split(sep)[1]`: the segment between the first and second
occurrence of `sep`; `none` models `undefined` (no occurrence). -/
def splitSecond (sep s : String) : Option String :=
  (afterFirst sep.data s.data).map (fun cs => String.mk (takeUntil sep.data cs))

/-- The `for (const part of parts)` loop of `parseImageRequest`: the last
part named `file` wins, and each part named `options` replaces `options`
with the parsed array, or with `[]` when `JSON.parse` throws or returns a
non-array. -/
def scanParts (jsonParse : List Nat → Option JsonValue) :
    List MultipartPart → Option (List Nat) → List String →
      Option (List Nat) × List String
  | [], buf, opts => (buf, opts)
  | p :: rest, buf, opts =>
      if p.name = "file" then scanParts jsonParse rest (some p.data) opts
      else if p.name = "options" then
        scanParts jsonParse rest buf
          (match jsonParse p.data with
           | some (.arr xs) => xs
           | some .nonArray => []
           | none => [])
      else scanParts jsonParse rest buf opts

/-- `parseImageRequest(request)` from `src/utils/requestParser.js`.
`contentType` is the `content-type` header (`none` = absent), `parts` is
the multipart library's output for the request body and extracted
boundary.  The final guard is `!imageBuffer || imageBuffer.length === 0`,
so both a missing `file` part and a zero-length one fail with
`NO_FILE_FOUND`; `boundary` is falsy both when `undefined` and when it is
the empty string. -/
def parseImageRequest (contentType : Option String) (parts : List MultipartPart)
    (jsonParse : List Nat → Option JsonValue) : ParseResult :=
  match contentType with
  | none => .failure .invalidContentType
  | some ct =>
      if stringIncludes ct "multipart/form-data" = false then .failure .invalidContentType
      else
        match splitSecond "boundary=" ct with
        | none => .failure .missingBoundary
        | some b =>
            if b = "" then .failure .missingBoundary
            else
              match scanParts jsonParse parts none [] with
              | (none, _) => .failure .noFileFound
              | (some buf, opts) =>
                  if buf.length = 0 then .failure .noFileFound
                  else .parsed buf opts

/-! ## Dispatch handler (src/functions/PngToJpg.js, `ImageConverterMain`)

The handler derives the client IP, runs `checkRateLimit`, and never
touches the `ipLimits` map again; the body of the `try` block only decides
the response.  The per-request inputs that come from outside the shared
map — the parse result for this request's body and the behaviour of the
awaited processor — are passed in as values. -/

structure ProcMetaSide where
  format : String
  width : Nat
  height : Nat
  size : Nat
  channels : Nat
  hasAlpha : Bool
  deriving DecidableEq, Repr

/-- `metadata.processing` as built by the conversion modules.  The
`sizeChangePercent` and `compressionRatio` fields are `toFixed`-formatted
floating-point strings (display only) and are omitted. -/
structure ProcessingMeta where
  appliedOptions : List String
  sizeChange : Int
  deriving DecidableEq, Repr

structure ProcMetadata where
  original : ProcMetaSide
  final : ProcMetaSide
  processing : ProcessingMeta
  deriving DecidableEq, Repr

/-- The object a processor resolves with, as the dispatch handler sees it.
`buffer := none` models a missing/null `buffer` field; `some bytes` a real
`Buffer`, possibly zero-length.  In JS, `!processingResult.buffer` is true
only in the `none` case: a zero-length `Buffer` is an object and objects
are truthy. -/
structure ProcessingResult where
  success : Bool
  buffer : Option (List Nat)
  metadata : ProcMetadata
  deriving DecidableEq, Repr

/-- How the awaited `conversionConfig.processor(...)` call behaves:
it either rejects (the `catch` turns this into `INTERNAL_ERROR`) or
resolves with a `ProcessingResult`. -/
inductive ProcOutcome where
  | throws (msg : String)
  | resolves (r : ProcessingResult)
  deriving DecidableEq, Repr

/-- The slice of the HTTP response the claims are about: status, the
`success` flag, the error `code` (none on success), and the
`X-RateLimit-Remaining` header (attached only to the 200 response). -/
structure HttpResponse where
  status : Nat
  success : Bool
  code : Option String
  rateLimitRemaining : Option Nat
  deriving DecidableEq, Repr

/-- The response computed by the `ImageConverterMain` handler after the
rate-limit check, translated branch by branch from the source.  The
processor is only invoked when `isConversionSupported` passed; if the
lookup produced an inherited prototype member instead of a registry
entry, `conversionConfig.processor` is not a function and the call throws
a `TypeError`, which the outer catch maps to `INTERNAL_ERROR`. -/
def dispatchResponse (conversionType : String) (parseOutcome : ParseResult)
    (procOutcome : ProcOutcome) (rl : RLResult) : HttpResponse :=
  if rl.allowed = false then
    { status := 429, success := false, code := some "RATE_LIMIT_EXCEEDED",
      rateLimitRemaining := none }
  else
    match parseOutcome with
    | .failure e =>
        { status := e.status, success := false, code := some e.code,
          rateLimitRemaining := none }
    | .parsed _buf _opts =>
        if isConversionSupported conversionType = false then
          { status := 400, success := false, code := some "UNSUPPORTED_CONVERSION",
            rateLimitRemaining := none }
        else
          match getConversionConfig conversionType with
          | some (.entry _e) =>
              match procOutcome with
              | .throws _ =>
                  { status := 500, success := false, code := some "INTERNAL_ERROR",
                    rateLimitRemaining := none }
              | .resolves r =>
                  if r.success = false ∨ r.buffer = none then
                    { status := 500, success := false, code := some "PROCESSING_ERROR",
                      rateLimitRemaining := none }
                  else
                    { status := 200, success := true, code := none,
                      rateLimitRemaining := some rl.remaining }
          | some (.inherited _) =>
              { status := 500, success := false, code := some "INTERNAL_ERROR",
                rateLimitRemaining := none }
          | none =>
              { status := 500, success := false, code := some "INTERNAL_ERROR",
                rateLimitRemaining := none }

/-- The full `ImageConverterMain` handler: one `checkRateLimit` call on
the shared map, then a pure response computation; nothing after the check
writes to the map. -/
def imageConverterMain (conversionType ip : String) (now : Nat)
    (parseOutcome : ParseResult) (procOutcome : ProcOutcome)
    (st : RateState) : HttpResponse × RateState :=
  let res := checkRateLimit ip now st
  (dispatchResponse conversionType parseOutcome procOutcome res.1, res.2)

/-! ## RateLimitStatus handler (src/functions/PngToJpg.js) -/

structure StatusResponse where
  status : Nat
  ip : String
  remaining : Nat
  limit : Nat
  resetTime : Option Nat
  deriving DecidableEq, Repr

/-- The `GET /rate-limit-status` handler: it obtains the caller's usage by
calling `checkRateLimit(clientIP)` on the shared map — the same mutating
function the conversion route uses — and reports its result
(`resetTime || null`). -/
def rateLimitStatus (ip : String) (now : Nat) (st : RateState) :
    StatusResponse × RateState :=
  let res := checkRateLimit ip now st
  ({ status := 200, ip := ip, remaining := res.1.remaining,
     limit := REQUESTS_PER_DAY, resetTime := res.1.resetTime }, res.2)

/-- `n` consecutive status queries from the same IP at time `t`. -/
def iterStatus (ip : String) (t : Nat) : Nat → RateState → RateState
  | 0, st => st
  | n + 1, st => iterStatus ip t n (rateLimitStatus ip t st).2

/-- The in-window count stored for `ip` before a call at time `now`
(0 when the record is absent or its window has expired). -/
def inWindowCount (ip : String) (now : Nat) (st : RateState) : Nat :=
  match lookupIp ip st with
  | some r => if DAY_IN_MS ≤ now - r.lastReset then 0 else r.count
  | none => 0

/-! ## Conversion modules (src/modules/JpgToPng.js, src/modules/PngToAvif.js)

The sharp library sits behind three boundaries, passed as parameters:
`getMeta` is `sharp(buf).metadata()` (`none` = the promise rejected),
`sharedProcess` is
`sharedImageProcessing.processImageWithOptions(buf, opts, params)`
(`none` = it threw; the module then falls back to the original buffer),
and `convert` is the module's sharp pipeline
(`convertJpgToPng` / `convertPngToAvif`; `none` = it threw).  A thrown
error anywhere is re-thrown by the module's outer catch as
`Except.error`. -/

structure SharpMeta where
  format : String
  width : Nat
  height : Nat
  channels : Nat
  hasAlpha : Bool
  deriving DecidableEq, Repr

/-- `validateJpgImage`: a `Buffer` of at least 10 bytes whose first three
bytes hex-encode to `FFD8FF`. -/
def validateJpgImage (imageBuffer : List Nat) : Bool :=
  decide (10 ≤ imageBuffer.length) && (imageBuffer.take 3 == [0xFF, 0xD8, 0xFF])

/-- `validatePngImage`: a `Buffer` of at least 8 bytes starting with the
PNG signature. -/
def validatePngImage (imageBuffer : List Nat) : Bool :=
  decide (8 ≤ imageBuffer.length) &&
    (imageBuffer.take 8 == [0x89, 0x50, 0x4E, 0x47, 0x0D, 0x0A, 0x1A, 0x0A])

/-- The `processedBuffer` computation shared by both modules: when
`processingOptions` is non-empty, run the shared processing helper and
fall back to the original buffer if it throws; otherwise keep the
original buffer. -/
def moduleProcessedBuffer (sharedProcess : List Nat → List String → Option (List Nat))
    (imageBuffer : List Nat) (processingOptions : List String) : List Nat :=
  if 0 < processingOptions.length then
    match sharedProcess imageBuffer processingOptions with
    | some b => b
    | none => imageBuffer
  else imageBuffer

/-- `processJpgToPng(imageBuffer, processingOptions, conversionParams)`
from `src/modules/JpgToPng.js`.  `conversionParams` is consumed only by
the external calls and is absorbed into `sharedProcess`/`convert`;
`originalSize` is `imageBuffer.length`, taken before any processing. -/
def processJpgToPng
    (getMeta : List Nat → Option SharpMeta)
    (sharedProcess : List Nat → List String → Option (List Nat))
    (convert : List Nat → Option (List Nat))
    (imageBuffer : List Nat) (processingOptions : List String) :
    Except String ProcessingResult :=
  if validateJpgImage imageBuffer = false then
    .error "El archivo no es una imagen JPG/JPEG valida"
  else
    match getMeta imageBuffer with
    | none => .error "metadata rejected"
    | some originalMetadata =>
        match convert (moduleProcessedBuffer sharedProcess imageBuffer processingOptions) with
        | none => .error "Error convirtiendo JPG a PNG"
        | some pngBuffer =>
            match getMeta pngBuffer with
            | none => .error "metadata rejected"
            | some finalMetadata =>
                .ok
                  { success := true,
                    buffer := some pngBuffer,
                    metadata :=
                      { original :=
                          { format := originalMetadata.format,
                            width := originalMetadata.width,
                            height := originalMetadata.height,
                            size := imageBuffer.length,
                            channels := originalMetadata.channels,
                            hasAlpha := originalMetadata.hasAlpha },
                        final :=
                          { format := finalMetadata.format,
                            width := finalMetadata.width,
                            height := finalMetadata.height,
                            size := pngBuffer.length,
                            channels := finalMetadata.channels,
                            hasAlpha := finalMetadata.hasAlpha },
                        processing :=
                          { appliedOptions := processingOptions,
                            sizeChange :=
                              (pngBuffer.length : Int) - (imageBuffer.length : Int) } } }

/-- `processPngToAvif(imageBuffer, processingOptions, conversionParams)`
from `src/modules/PngToAvif.js`; same shape as `processJpgToPng` with the
PNG validator and the AVIF pipeline. -/
def processPngToAvif
    (getMeta : List Nat → Option SharpMeta)
    (sharedProcess : List Nat → List String → Option (List Nat))
    (convert : List Nat → Option (List Nat))
    (imageBuffer : List Nat) (processingOptions : List String) :
    Except String ProcessingResult :=
  if validatePngImage imageBuffer = false then
    .error "El archivo no es una imagen PNG valida"
  else
    match getMeta imageBuffer with
    | none => .error "metadata rejected"
    | some originalMetadata =>
        match convert (moduleProcessedBuffer sharedProcess imageBuffer processingOptions) with
        | none => .error "Error convirtiendo PNG a AVIF"
        | some avifBuffer =>
            match getMeta avifBuffer with
            | none => .error "metadata rejected"
            | some finalMetadata =>
                .ok
                  { success := true,
                    buffer := some avifBuffer,
                    metadata :=
                      { original :=
                          { format := originalMetadata.format,
                            width := originalMetadata.width,
                            height := originalMetadata.height,
                            size := imageBuffer.length,
                            channels := originalMetadata.channels,
                            hasAlpha := originalMetadata.hasAlpha },
                        final :=
                          { format := finalMetadata.format,
                            width := finalMetadata.width,
                            height := finalMetadata.height,
                            size := avifBuffer.length,
                            channels := finalMetadata.channels,
                            hasAlpha := finalMetadata.hasAlpha },
                        processing :=
                          { appliedOptions := processingOptions,
                            sizeChange :=
                              (avifBuffer.length : Int) - (imageBuffer.length : Int) } } }

/-! ## Claim theorems: registry -/

/-- C8: every key registered in `CONVERSION_MODULES` looks up to a
non-null own registry entry whose `outputFormat` equals the suffix of the
key after its `-to-` separator. -/
theorem registry_outputFormat_matches_suffix :
    ∀ k ∈ CONVERSION_MODULES.map Prod.fst,
      getConversionConfig k ≠ none ∧ registryEntryMatches k = true := by
  decide

/-- Witness for C8 at the key `jpg-to-png`. -/
theorem registry_outputFormat_matches_suffix_witness :
    getConversionConfig "jpg-to-png" ≠ none ∧
      registryEntryMatches "jpg-to-png" = true :=
  registry_outputFormat_matches_suffix "jpg-to-png" (by decide)

/-- C4 (code-bug evidence): `"constructor"` is not a registered key, yet
`isConversionSupported "constructor"` is `true` and
`getConversionConfig "constructor"` is non-null, because the JS `in`
operator and property read walk the object literal's prototype chain to
`Object.prototype`.  A POST to `/image/constructor` therefore passes the
support check and fails only when `conversionConfig.processor` (the
inherited `Object` constructor is not the expected function shape) is
invoked, producing 500 `INTERNAL_ERROR` instead of the documented 400
`UNSUPPORTED_CONVERSION` / null lookup miss. -/
theorem registry_prototype_chain_leak :
    (∀ p ∈ CONVERSION_MODULES, p.1 ≠ "constructor") ∧
    isConversionSupported "constructor" = true ∧
    getConversionConfig "constructor" ≠ none ∧
    (imageConverterMain "constructor" "203.0.113.10" 0 (.parsed [1] [])
        (.throws "conversionConfig.processor is not a function") []).1 =
      { status := 500, success := false, code := some "INTERNAL_ERROR",
        rateLimitRemaining := none } := by
  decide

/-! ## Claim theorems: request parser -/

theorem scanParts_all_options_fail (jsonParse : List Nat → Option JsonValue) :
    ∀ (parts : List MultipartPart) (buf₀ : Option (List Nat)),
      (∀ p ∈ parts, p.name = "file" → p.data ≠ []) →
      (∀ p ∈ parts, p.name = "options" → jsonParse p.data = none) →
      ((∃ p ∈ parts, p.name = "file") ∨ (∃ b, buf₀ = some b ∧ b ≠ [])) →
      ∃ buf, scanParts jsonParse parts buf₀ [] = (some buf, []) ∧ buf ≠ [] := by
  intro parts
  induction parts with
  | nil =>
      intro buf₀ _ _ h3
      rcases h3 with ⟨p, hp, _⟩ | ⟨b, hb, hne⟩
      · simp at hp
      · exact ⟨b, by simp [scanParts, hb], hne⟩
  | cons p rest ih =>
      intro buf₀ h1 h2 h3
      by_cases hf : p.name = "file"
      · have hd : p.data ≠ [] := h1 p (by simp) hf
        have hres := ih (some p.data)
          (fun q hq hqf => h1 q (by simp [hq]) hqf)
          (fun q hq hqo => h2 q (by simp [hq]) hqo)
          (Or.inr ⟨p.data, rfl, hd⟩)
        simpa [scanParts, hf] using hres
      · have hrest : (∃ q ∈ rest, q.name = "file") ∨ (∃ b, buf₀ = some b ∧ b ≠ []) := by
          rcases h3 with ⟨q, hq, hqf⟩ | hb
          · rcases List.mem_cons.mp hq with rfl | hq2
            · exact absurd hqf hf
            · exact Or.inl ⟨q, hq2, hqf⟩
          · exact Or.inr hb
        by_cases ho : p.name = "options"
        · have hjson : jsonParse p.data = none := h2 p (by simp) ho
          have hres := ih buf₀
            (fun q hq hqf => h1 q (by simp [hq]) hqf)
            (fun q hq hqo => h2 q (by simp [hq]) hqo) hrest
          simpa [scanParts, hf, ho, hjson] using hres
        · have hres := ih buf₀
            (fun q hq hqf => h1 q (by simp [hq]) hqf)
            (fun q hq hqo => h2 q (by simp [hq]) hqo) hrest
          simpa [scanParts, hf, ho] using hres

/-- C6: a multipart request whose parts include a `file` part with
non-empty data and whose `options` parts all fail `JSON.parse` yields a
non-error result with `options = []`; the malformed options never cause
an error result. -/
theorem parseImageRequest_tolerates_malformed_options (ct : String)
    (parts : List MultipartPart) (jsonParse : List Nat → Option JsonValue)
    (b : String)
    (hct : stringIncludes ct "multipart/form-data" = true)
    (hb : splitSecond "boundary=" ct = some b) (hbne : b ≠ "")
    (hfile : ∃ p ∈ parts, p.name = "file")
    (hfdata : ∀ p ∈ parts, p.name = "file" → p.data ≠ [])
    (hopts : ∀ p ∈ parts, p.name = "options" → jsonParse p.data = none) :
    ∃ buf, parseImageRequest (some ct) parts jsonParse = .parsed buf [] ∧
      buf ≠ [] := by
  obtain ⟨buf, hscan, hne⟩ :=
    scanParts_all_options_fail jsonParse parts none hfdata hopts (Or.inl hfile)
  refine ⟨buf, ?_, hne⟩
  simp only [parseImageRequest]
  rw [hct, hb, hscan]
  simp [hbne, List.length_eq_zero, hne]

/-- Witness for C6: the literal request with `options` = the bytes of
`"not json"` (every byte list is rejected by this request's
`jsonParse`). -/
theorem parseImageRequest_tolerates_malformed_options_witness :
    ∃ buf,
      parseImageRequest (some "multipart/form-data; boundary=xyz")
          [⟨"file", [1, 2, 3]⟩, ⟨"options", [110, 111, 116, 32, 106, 115, 111, 110]⟩]
          (fun _ => none) = .parsed buf [] ∧ buf ≠ [] :=
  parseImageRequest_tolerates_malformed_options "multipart/form-data; boundary=xyz"
    [⟨"file", [1, 2, 3]⟩, ⟨"options", [110, 111, 116, 32, 106, 115, 111, 110]⟩]
    (fun _ => none) "xyz" (by decide) (by decide) (by decide)
    ⟨⟨"file", [1, 2, 3]⟩, by decide, rfl⟩ (by decide) (fun _ _ _ => rfl)

/-! ## Claim theorems: conversion modules -/

/-- C7: whenever `processJpgToPng` or `processPngToAvif` resolves
successfully, the returned metadata satisfies
`processing.sizeChange = final.size - original.size`, with
`original.size` the input buffer's byte length and `final.size` the
output buffer's byte length. -/
theorem module_metadata_sizeChange_consistent :
    (∀ (getMeta : List Nat → Option SharpMeta)
       (sharedProcess : List Nat → List String → Option (List Nat))
       (convert : List Nat → Option (List Nat))
       (imageBuffer : List Nat) (processingOptions : List String)
       (r : ProcessingResult),
        processJpgToPng getMeta sharedProcess convert imageBuffer processingOptions
          = .ok r →
        r.metadata.original.size = imageBuffer.length ∧
        (∃ out, r.buffer = some out ∧ r.metadata.final.size = out.length) ∧
        r.metadata.processing.sizeChange =
          (r.metadata.final.size : Int) - (r.metadata.original.size : Int)) ∧
    (∀ (getMeta : List Nat → Option SharpMeta)
       (sharedProcess : List Nat → List String → Option (List Nat))
       (convert : List Nat → Option (List Nat))
       (imageBuffer : List Nat) (processingOptions : List String)
       (r : ProcessingResult),
        processPngToAvif getMeta sharedProcess convert imageBuffer processingOptions
          = .ok r →
        r.metadata.original.size = imageBuffer.length ∧
        (∃ out, r.buffer = some out ∧ r.metadata.final.size = out.length) ∧
        r.metadata.processing.sizeChange =
          (r.metadata.final.size : Int) - (r.metadata.original.size : Int)) := by
  constructor
  · intro gm sp cv buf opts r h
    unfold processJpgToPng at h
    split at h
    · exact absurd h (by simp)
    · split at h
      · exact absurd h (by simp)
      · split at h
        · exact absurd h (by simp)
        · split at h
          · exact absurd h (by simp)
          · injection h with h2
            subst h2
            exact ⟨rfl, ⟨_, rfl, rfl⟩, rfl⟩
  · intro gm sp cv buf opts r h
    unfold processPngToAvif at h
    split at h
    · exact absurd h (by simp)
    · split at h
      · exact absurd h (by simp)
      · split at h
        · exact absurd h (by simp)
        · split at h
          · exact absurd h (by simp)
          · injection h with h2
            subst h2
            exact ⟨rfl, ⟨_, rfl, rfl⟩, rfl⟩

/-- Witness for C7: both modules on concrete 10-byte inputs, with the
sharp boundary returning a 4-byte output. -/
theorem module_metadata_sizeChange_consistent_witness :
    ((processJpgToPng (fun _ => some ⟨"jpeg", 1, 1, 3, false⟩) (fun _ _ => none)
        (fun _ => some [9, 9, 9, 9])
        [0xFF, 0xD8, 0xFF, 0, 0, 0, 0, 0, 0, 0] []).map
          (fun r => r.metadata.processing.sizeChange) = .ok (-6) ∧
      (∀ r : ProcessingResult,
        processJpgToPng (fun _ => some ⟨"jpeg", 1, 1, 3, false⟩) (fun _ _ => none)
          (fun _ => some [9, 9, 9, 9])
          [0xFF, 0xD8, 0xFF, 0, 0, 0, 0, 0, 0, 0] [] = .ok r →
        r.metadata.processing.sizeChange =
          (r.metadata.final.size : Int) - (r.metadata.original.size : Int))) ∧
    (∀ r : ProcessingResult,
      processPngToAvif (fun _ => some ⟨"png", 1, 1, 4, true⟩) (fun _ _ => none)
        (fun _ => some [9, 9, 9, 9])
        [0x89, 0x50, 0x4E, 0x47, 0x0D, 0x0A, 0x1A, 0x0A] [] = .ok r →
      r.metadata.processing.sizeChange =
        (r.metadata.final.size : Int) - (r.metadata.original.size : Int)) := by
  refine ⟨⟨rfl, fun r h => ?_⟩, fun r h => ?_⟩
  · exact (module_metadata_sizeChange_consistent.1 _ _ _ _ _ r h).2.2
  · exact (module_metadata_sizeChange_consistent.2 _ _ _ _ _ r h).2.2

/-! ## Claim theorems: dispatch handler -/

/-- C5 counterexample: the processor resolves with `success = true` and a
zero-length output buffer, yet the handler returns 200, not
500 `PROCESSING_ERROR` — the guard `!processingResult.buffer` does not
catch a zero-length `Buffer`, which is a truthy object in JS. -/
theorem dispatch_empty_buffer_yields_200 :
    (imageConverterMain "png-to-jpg" "203.0.113.11" 0 (.parsed [1, 2] [])
        (.resolves
          { success := true, buffer := some [],
            metadata :=
              { original := ⟨"png", 1, 1, 2, 3, false⟩,
                final := ⟨"jpeg", 1, 1, 0, 3, false⟩,
                processing := ⟨[], -2⟩ } }) []).1 =
      { status := 200, success := true, code := none,
        rateLimitRemaining := some 199 } := by
  decide

/-- C5 amended: on the processor-result path, the handler returns 500
`PROCESSING_ERROR` exactly when `success` is `false` or the `buffer`
field is missing/null; a zero-length buffer with `success = true` is not
detected. -/
theorem dispatch_processing_error_cases (conversionType ip : String) (now : Nat)
    (imageBuffer : List Nat) (options : List String) (r : ProcessingResult)
    (st : RateState) (e : ConversionEntry)
    (hallowed : (checkRateLimit ip now st).1.allowed = true)
    (hentry : getConversionConfig conversionType = some (.entry e))
    (hfail : r.success = false ∨ r.buffer = none) :
    (imageConverterMain conversionType ip now (.parsed imageBuffer options)
        (.resolves r) st).1 =
      { status := 500, success := false, code := some "PROCESSING_ERROR",
        rateLimitRemaining := none } := by
  have hsupp : isConversionSupported conversionType = true := by
    unfold isConversionSupported
    unfold getConversionConfig at hentry
    rw [hentry]
    rfl
  show dispatchResponse conversionType (.parsed imageBuffer options)
      (.resolves r) (checkRateLimit ip now st).1 = _
  unfold dispatchResponse
  rw [hallowed, hentry]
  simp only [hsupp, Bool.true_eq_false, if_false, if_pos hfail]

/-- Witness for C5 (amended): a concrete `success = false` result on the
`png-to-jpg` route. -/
theorem dispatch_processing_error_cases_witness :
    (imageConverterMain "png-to-jpg" "203.0.113.14" 0 (.parsed [1] [])
        (.resolves
          { success := false, buffer := some [7, 7],
            metadata :=
              { original := ⟨"png", 1, 1, 1, 3, false⟩,
                final := ⟨"jpeg", 1, 1, 2, 3, false⟩,
                processing := ⟨[], 1⟩ } }) []).1 =
      { status := 500, success := false, code := some "PROCESSING_ERROR",
        rateLimitRemaining := none } :=
  dispatch_processing_error_cases "png-to-jpg" "203.0.113.14" 0 [1] []
    { success := false, buffer := some [7, 7],
      metadata :=
        { original := ⟨"png", 1, 1, 1, 3, false⟩,
          final := ⟨"jpeg", 1, 1, 2, 3, false⟩,
          processing := ⟨[], 1⟩ } }
    [] ⟨"processPngToJpg", "jpg"⟩ (by decide) (by decide) (Or.inl rfl)

/-- 429 is issued exactly on the not-allowed branch: if the rate check
does not allow, the response is the 429 envelope. -/
theorem dispatchResponse_of_not_allowed (conversionType : String)
    (parseOutcome : ParseResult) (procOutcome : ProcOutcome) (rl : RLResult)
    (h : rl.allowed = false) :
    dispatchResponse conversionType parseOutcome procOutcome rl =
      { status := 429, success := false, code := some "RATE_LIMIT_EXCEEDED",
        rateLimitRemaining := none } := by
  unfold dispatchResponse
  rw [h]
  rfl

/-- Running `n` status queries in-window from a single-record map just
adds `n` to the stored count (while it stays within the quota). -/
theorem iterStatus_adds (ip : String) (t : Nat) :
    ∀ (n c : Nat), c + n ≤ 200 →
      iterStatus ip t n [(ip, ⟨c, t⟩)] = [(ip, ⟨c + n, t⟩)] := by
  intro n
  induction n with
  | zero => intro c _; simp [iterStatus]
  | succ n ih =>
      intro c hle
      have hstep : (rateLimitStatus ip t [(ip, ⟨c, t⟩)]).2 = [(ip, ⟨c + 1, t⟩)] := by
        show (checkRateLimit ip t [(ip, ⟨c, t⟩)]).2 = _
        rw [checkRateLimit_of_incr ip t [(ip, ⟨c, t⟩)] ⟨c, t⟩ (by simp [lookupIp])
          (by rw [Nat.sub_self]; decide) (by show c < 200; omega)]
        simp [setIp]
      rw [iterStatus, hstep, ih (c + 1) (by omega)]
      have h1 : c + 1 + n = c + (n + 1) := by omega
      rw [h1]

/-- C9: the `GET /rate-limit-status` handler is not read-only.  It
commits exactly the map update of `checkRateLimit`; for a fresh IP it
creates the record (changing the map); inside the window with
`count < 200` it increments the stored count and reports
`remaining = 200 - (count+1)` (one unit consumed); and 200 status
queries from a fresh IP exhaust the quota, so the next check at the same
clock is rejected. -/
theorem rateLimitStatus_mutates_quota (ip : String) (now : Nat) (st : RateState) :
    ((rateLimitStatus ip now st).2 = (checkRateLimit ip now st).2) ∧
    (lookupIp ip st = none →
      (rateLimitStatus ip now st).2 = setIp ip ⟨1, now⟩ st ∧
      (rateLimitStatus ip now st).2 ≠ st ∧
      (rateLimitStatus ip now st).1.remaining = 199) ∧
    (∀ r : RLRecord, lookupIp ip st = some r → now - r.lastReset < DAY_IN_MS →
      r.count < 200 →
      lookupIp ip (rateLimitStatus ip now st).2 = some ⟨r.count + 1, r.lastReset⟩ ∧
      (rateLimitStatus ip now st).1.remaining = 200 - (r.count + 1)) ∧
    (∀ t : Nat, (checkRateLimit ip t (iterStatus ip t 200 [])).1.allowed = false) := by
  refine ⟨rfl, ?_, ?_, ?_⟩
  · intro hnone
    have heq : checkRateLimit ip now st =
        ({ allowed := true, remaining := REQUESTS_PER_DAY - 1 }, setIp ip ⟨1, now⟩ st) :=
      checkRateLimit_of_lookup_none ip now st hnone
    refine ⟨?_, ?_, ?_⟩
    · show (checkRateLimit ip now st).2 = _
      rw [heq]
    · show (checkRateLimit ip now st).2 ≠ st
      rw [heq]
      intro hcontra
      have h2 : lookupIp ip st = some ⟨1, now⟩ := by
        rw [← hcontra]
        exact lookupIp_setIp_self ip ⟨1, now⟩ st
      rw [hnone] at h2
      exact Option.noConfusion h2
    · show (checkRateLimit ip now st).1.remaining = 199
      rw [heq]
      rfl
  · intro r hfound hw hc
    have heq := checkRateLimit_of_incr ip now st r hfound hw
      (by show r.count < 200; omega)
    constructor
    · show lookupIp ip (checkRateLimit ip now st).2 = _
      rw [heq]
      exact lookupIp_setIp_self ip ⟨r.count + 1, r.lastReset⟩ st
    · show (checkRateLimit ip now st).1.remaining = _
      rw [heq]
      rfl
  · intro t
    have hfirst : (rateLimitStatus ip t []).2 = [(ip, ⟨1, t⟩)] := by
      show (checkRateLimit ip t []).2 = _
      rw [checkRateLimit_of_lookup_none ip t [] rfl]
      rfl
    have h200 : iterStatus ip t 200 [] = [(ip, ⟨200, t⟩)] := by
      rw [iterStatus, hfirst]
      have := iterStatus_adds ip t 199 1 (by omega)
      rw [this]
    rw [h200, checkRateLimit_of_over ip t [(ip, ⟨200, t⟩)] ⟨200, t⟩
      (by simp [lookupIp]) (by rw [Nat.sub_self]; decide) (Nat.le_refl 200)]

/-- Witness for C9: from the empty map at time 0, one status query
creates the record (the map changes), and 200 status queries exhaust the
quota for the next check. -/
theorem rateLimitStatus_mutates_quota_witness :
    (rateLimitStatus "203.0.113.12" 0 []).2 = setIp "203.0.113.12" ⟨1, 0⟩ [] ∧
    (rateLimitStatus "203.0.113.12" 0 []).2 ≠ [] ∧
    (checkRateLimit "203.0.113.12" 0 (iterStatus "203.0.113.12" 0 200 [])).1.allowed
      = false := by
  have h := rateLimitStatus_mutates_quota "203.0.113.12" 0 []
  have hf := h.2.1 rfl
  exact ⟨hf.1, hf.2.1, h.2.2.2 0⟩

/-- C10: the dispatch handler checks the rate limit before parsing and
registry lookup, and never rolls the counter back: the post-state map is
exactly `checkRateLimit`'s post-state on every path, and whenever the
response is not the 429 rejection, the stored count for the caller's IP
is the prior in-window count plus one — including responses that end in
a 400 parse error, a 400 `UNSUPPORTED_CONVERSION`, or a 500 error. -/
theorem dispatch_consumes_quota_on_all_paths (conversionType ip : String) (now : Nat)
    (parseOutcome : ParseResult) (procOutcome : ProcOutcome) (st : RateState) :
    ((imageConverterMain conversionType ip now parseOutcome procOutcome st).2 =
      (checkRateLimit ip now st).2) ∧
    ((imageConverterMain conversionType ip now parseOutcome procOutcome st).1.status
        ≠ 429 →
      (lookupIp ip
          (imageConverterMain conversionType ip now parseOutcome procOutcome st).2).map
          RLRecord.count = some (inWindowCount ip now st + 1)) := by
  refine ⟨rfl, ?_⟩
  intro hne
  have hal : (checkRateLimit ip now st).1.allowed = true := by
    by_contra hfalse
    have hfalse2 : (checkRateLimit ip now st).1.allowed = false := by
      cases hb : (checkRateLimit ip now st).1.allowed
      · rfl
      · exact absurd hb hfalse
    apply hne
    show (dispatchResponse conversionType parseOutcome procOutcome
        (checkRateLimit ip now st).1).status = 429
    rw [dispatchResponse_of_not_allowed conversionType parseOutcome procOutcome
      (checkRateLimit ip now st).1 hfalse2]
  show (lookupIp ip (checkRateLimit ip now st).2).map RLRecord.count = _
  cases hfind : lookupIp ip st with
  | none =>
      rw [checkRateLimit_of_lookup_none ip now st hfind]
      rw [lookupIp_setIp_self]
      simp [inWindowCount, hfind]
  | some r =>
      by_cases hreset : DAY_IN_MS ≤ now - r.lastReset
      · rw [checkRateLimit_of_reset ip now st r hfind hreset, lookupIp_setIp_self]
        simp [inWindowCount, hfind, hreset]
      · by_cases hover : REQUESTS_PER_DAY ≤ r.count
        · have := checkRateLimit_of_over ip now st r hfind (Nat.not_le.mp hreset) hover
          rw [this] at hal
          exact absurd hal (by simp)
        · rw [checkRateLimit_of_incr ip now st r hfind (Nat.not_le.mp hreset)
            (Nat.not_le.mp hover), lookupIp_setIp_self]
          simp [inWindowCount, hfind, hreset]

/-- Witness for C10: a request that fails parsing with
`INVALID_CONTENT_TYPE` (status 400) still consumes one unit of quota for
its fresh IP. -/
theorem dispatch_consumes_quota_on_all_paths_witness :
    ((imageConverterMain "jpg-to-png" "203.0.113.13" 0
        (.failure .invalidContentType) (.throws "x") []).2 =
      (checkRateLimit "203.0.113.13" 0 []).2) ∧
    ((lookupIp "203.0.113.13"
        (imageConverterMain "jpg-to-png" "203.0.113.13" 0
          (.failure .invalidContentType) (.throws "x") []).2).map
        RLRecord.count = some 1) := by
  have h := dispatch_consumes_quota_on_all_paths "jpg-to-png" "203.0.113.13" 0
    (.failure .invalidContentType) (.throws "x") []
  refine ⟨h.1, ?_⟩
  have h2 := h.2 (by decide)
  exact h2

end Quarksivo
